import Mathlib

/-!
Verification of `zipline/optimize/factory.py`: the oscillating trade-event
generator `create_updown_trade_source` and the run composer
`create_predictable_zipline`, shallowly embedded in Lean.

Modelling conventions:
* Timestamps (`datetime` values) are modelled as `Int`; the external
  collaborator `get_next_trading_dt(cur, one_day, env)` is modelled as an
  abstract function `advance : Int → Int` stored in the environment (the
  fixed `one_day` step is folded into the abstract function).
* Prices (Python floats) are modelled as `ℚ` with exact arithmetic.
* Python dictionaries are association lists preserving insertion order;
  object identity of dictionaries is modelled by a small heap
  (`List Dict`) addressed by position, so that the non-mutation of the
  caller's configuration object is a real statement.
-/

set_option autoImplicit false

namespace Zipline

/-- The trading environment object: `first_open`, the external trading-day
advancement rule (`get_next_trading_dt` with a one-day step), and the
mutable `period_end` field (`none` until assigned). -/
structure TradingEnvironment where
  first_open : Int
  advance : Int → Int
  period_end : Option Int

/-- One emitted trade event (`zp.ndict` in the source): type tag, sid,
price, volume and timestamp `dt`. -/
structure TradeEvent where
  type : String
  sid : Int
  price : ℚ
  volume : Int
  dt : Int
  deriving DecidableEq, Repr

/-- Default event used only as the `List.getD` fallback in statements. -/
def defaultEvent : TradeEvent := ⟨"", 0, 0, 0, 0⟩

/-- The named immutable event container returned by the generator
(`SpecificEquityTrades(name, events)`). -/
structure SpecificEquityTrades where
  name : String
  events : List TradeEvent
  deriving DecidableEq, Repr

/-- Value yielded by the `cycle([1,-1])` iterator at its `i`-th `next()`
call: `+1` for even `i`, `-1` for odd `i`.  The iterator is created fresh
per generator call and advanced exactly once per loop iteration, so the
value at iteration `i` is a pure function of `i`. -/
def sign (i : Nat) : ℚ := if i % 2 = 0 then 1 else -1

/-- The body of the generator's `for i in xrange(trade_count + 2)` loop:
advance the cursor, emit the event at the current price and new cursor,
then bump the price by `sign i * amplitude`.  Returns the event list and
the final cursor value. -/
def updownLoop (sid : Int) (adv : Int → Int) (amp : ℚ) :
    Nat → Nat → Int → ℚ → List TradeEvent × Int
  | 0, _, cur, _ => ([], cur)
  | n + 1, i, cur, price =>
    let cur2 := adv cur
    let res := updownLoop sid adv amp n (i + 1) cur2 (price + sign i * amp)
    (⟨"trade", sid, price, 1000, cur2⟩ :: res.1, res.2)

/-- Embedding of `create_updown_trade_source(sid, trade_count,
trading_environment, base_price, amplitude)`: runs the loop
`trade_count + 2` times (per `xrange`, zero times when that is negative),
assigns `trading_environment.period_end = cur`, and wraps the events in a
`SpecificEquityTrades` named `"updown_" + str(sid)`.  Returns the source
together with the updated environment. -/
def create_updown_trade_source (sid trade_count : Int)
    (env : TradingEnvironment) (base_price amplitude : ℚ) :
    SpecificEquityTrades × TradingEnvironment :=
  let price := base_price - amplitude / 2
  let res := updownLoop sid env.advance amplitude (trade_count + 2).toNat 0
    env.first_open price
  (⟨"updown_" ++ toString sid, res.1⟩,
   { env with period_end := some res.2 })

/-- Running price after `j` price-update steps, starting from price `p`
with the sign iterator positioned at index `i`. -/
def priceAt (amp : ℚ) : Nat → ℚ → Nat → ℚ
  | _, p, 0 => p
  | i, p, j + 1 => priceAt amp (i + 1) (p + sign i * amp) j

@[simp] theorem updownLoop_zero (sid : Int) (adv : Int → Int) (amp : ℚ)
    (i : Nat) (cur : Int) (price : ℚ) :
    updownLoop sid adv amp 0 i cur price = ([], cur) := rfl

theorem updownLoop_succ (sid : Int) (adv : Int → Int) (amp : ℚ)
    (n i : Nat) (cur : Int) (price : ℚ) :
    updownLoop sid adv amp (n + 1) i cur price =
      (⟨"trade", sid, price, 1000, adv cur⟩ ::
        (updownLoop sid adv amp n (i + 1) (adv cur) (price + sign i * amp)).1,
       (updownLoop sid adv amp n (i + 1) (adv cur) (price + sign i * amp)).2) := rfl

@[simp] theorem updownLoop_length (sid : Int) (adv : Int → Int) (amp : ℚ) :
    ∀ (n i : Nat) (cur : Int) (price : ℚ),
      (updownLoop sid adv amp n i cur price).1.length = n := by
  intro n
  induction n with
  | zero => intro i cur price; simp
  | succ m ih =>
    intro i cur price
    rw [updownLoop_succ]
    simp [ih]

/-- Closed form of the `j`-th emitted event: the price is `priceAt amp i p j`
and the timestamp is the `(j+1)`-st iterate of the advancement rule. -/
theorem updownLoop_getD (sid : Int) (adv : Int → Int) (amp : ℚ) :
    ∀ (j n i : Nat) (cur : Int) (price : ℚ), j < n →
      (updownLoop sid adv amp n i cur price).1.getD j defaultEvent =
        ⟨"trade", sid, priceAt amp i price j, 1000, adv^[j + 1] cur⟩ := by
  intro j
  induction j with
  | zero =>
    intro n i cur price hj
    match n, hj with
    | m + 1, _ =>
      rw [updownLoop_succ]
      simp [priceAt]
  | succ j ih =>
    intro n i cur price hj
    match n, hj with
    | m + 1, hj =>
      rw [updownLoop_succ]
      have hjm : j < m := by omega
      simp only [List.getD_cons_succ]
      rw [ih m (i + 1) (adv cur) (price + sign i * amp) hjm]
      simp [Function.iterate_succ_apply, priceAt]

theorem updownLoop_snd (sid : Int) (adv : Int → Int) (amp : ℚ) :
    ∀ (n i : Nat) (cur : Int) (price : ℚ),
      (updownLoop sid adv amp n i cur price).2 = adv^[n] cur := by
  intro n
  induction n with
  | zero => intro i cur price; simp
  | succ m ih =>
    intro i cur price
    rw [updownLoop_succ]
    simp only [ih, Function.iterate_succ_apply]

theorem updownLoop_mem (sid : Int) (adv : Int → Int) (amp : ℚ) :
    ∀ (n i : Nat) (cur : Int) (price : ℚ),
      ∀ e ∈ (updownLoop sid adv amp n i cur price).1,
        e.type = "trade" ∧ e.sid = sid ∧ e.volume = 1000 := by
  intro n
  induction n with
  | zero => intro i cur price e he; simp at he
  | succ m ih =>
    intro i cur price e he
    rw [updownLoop_succ] at he
    rcases List.mem_cons.mp he with h | h
    · subst h; exact ⟨rfl, rfl, rfl⟩
    · exact ih (i + 1) (adv cur) (price + sign i * amp) e h

/-- One step of the running price: step `j` adds `sign (i + j) * amp`. -/
theorem priceAt_succ_right (amp : ℚ) :
    ∀ (j i : Nat) (p : ℚ),
      priceAt amp i p (j + 1) = priceAt amp i p j + sign (i + j) * amp := by
  intro j
  induction j with
  | zero => intro i p; simp [priceAt]
  | succ j ih =>
    intro i p
    show priceAt amp (i + 1) (p + sign i * amp) (j + 1) = _
    rw [ih (i + 1) (p + sign i * amp)]
    have : i + 1 + j = i + (j + 1) := by omega
    rw [this]
    rfl

/-- Values storable in a run-configuration dictionary: integers (sid,
counts, prices), a `BuySellAlgorithm(sid, order_size, offset)` instance
recorded by its constructor arguments, a trade source, a trading
environment, and a simulation-style tag. -/
inductive Val where
  | int : Int → Val
  | strategy : Int → Int → Int → Val
  | source : SpecificEquityTrades → Val
  | env : TradingEnvironment → Val
  | style : String → Val

/-- A Python dictionary value: an association list preserving insertion
order (keys are unique by construction of the operations below). -/
abbrev Dict := List (String × Val)

namespace Dict

/-- `d[k]` lookup: first binding of `k`. -/
def lookup : Dict → String → Option Val
  | [], _ => none
  | (k', v) :: rest, k => if k' = k then some v else lookup rest k

/-- Removal of key `k` (as done by `d.pop(k, default)`). -/
def erase : Dict → String → Dict
  | [], _ => []
  | (k', v) :: rest, k =>
    if k' = k then erase rest k else (k', v) :: erase rest k

/-- `d[k] = v` assignment: overwrite in place if the key exists
(Python dicts keep the original position), else append. -/
def insert : Dict → String → Val → Dict
  | [], k, v => [(k, v)]
  | (k', v') :: rest, k, v =>
    if k' = k then (k, v) :: rest else (k', v') :: insert rest k v

/-- `d.pop(k, dflt)` restricted to integer values: yields the removed (or
default) integer and the remaining dictionary, or `none` when the stored
value is not an integer (the model's stand-in for the `TypeError` Python
would raise downstream on a non-numeric configuration value). -/
def popInt (d : Dict) (k : String) (dflt : Int) : Option (Int × Dict) :=
  match d.lookup k with
  | none => some (dflt, d)
  | some (.int n) => some (n, d.erase k)
  | some _ => none

end Dict

/-- The heap of dictionary objects; an address is a position in the list.
Only dictionaries need identity for the claims at hand. -/
abbrev Heap := List Dict

/-- Dereference an address (unallocated addresses read as empty). -/
def Heap.read (h : Heap) (a : Nat) : Dict := h.getD a []

/-- Observable external calls made by the run composer, in order. -/
inductive Effect where
  | createEnv
  | buildSource
  | createZipline
  | runSimulation
  deriving DecidableEq, Repr

/-- Python errors the model distinguishes. -/
inductive PyErr where
  | keyError : String → PyErr
  | typeError : PyErr
  deriving DecidableEq, Repr

/-- Result of the run composer: the heap after the call, the external
calls performed, and either an error or the final configuration
dictionary (the composer also returns the opaque zipline handle, which
the model does not represent). -/
structure ComposeOut where
  heap : Heap
  effects : List Effect
  ret : Except PyErr Dict

/-- The value-level part of `create_predictable_zipline(config, offset,
simulate)`, acting on the contents of the (already copied) configuration
dictionary.  Steps, in source order: read `config['sid']` (a missing key
is a `KeyError` raised before any external call), pop `amplitude` /
`base_price` / `trade_count` with defaults 10 / 50 / 3, build the updown
trade source from the fresh environment `env0` (the result of the
external `create_trading_environment()`), default `config['algorithm']`
to `BuySellAlgorithm(sid, 100, offset)` when absent, and insert the
derived keys `order_count = trade_count - 1`, `trade_count`,
`trade_source`, `environment` and `simulation_style`. -/
def composeConfig (config0 : Dict) (offset : Int)
    (env0 : TradingEnvironment) : Except PyErr Dict :=
  match config0.lookup "sid" with
  | none => .error (.keyError "sid")
  | some (.int sid) =>
    match config0.popInt "amplitude" 10 with
    | none => .error .typeError
    | some (amplitude, c1) =>
      match c1.popInt "base_price" 50 with
      | none => .error .typeError
      | some (base_price, c2) =>
        match c2.popInt "trade_count" 3 with
        | none => .error .typeError
        | some (trade_count, c3) =>
          let gen := create_updown_trade_source sid trade_count env0
            (base_price : ℚ) (amplitude : ℚ)
          let c4 := if (c3.lookup "algorithm").isSome then c3
            else c3.insert "algorithm" (.strategy sid 100 offset)
          let c5 := c4.insert "order_count" (.int (trade_count - 1))
          let c6 := c5.insert "trade_count" (.int trade_count)
          let c7 := c6.insert "trade_source" (.source gen.1)
          let c8 := c7.insert "environment" (.env gen.2)
          .ok (c8.insert "simulation_style" (.style "FIXED_SLIPPAGE"))
  | some _ => .error .typeError

/-- Embedding of `create_predictable_zipline(config, offset, simulate)`.
The caller's configuration object lives at `callerAddr` in `h0`;
`config = copy(config)` allocates a fresh dictionary at the end of the
heap and every subsequent operation acts on that copy, whose final
contents are given by `composeConfig`.  On success the external calls
are: create the environment, build the trade source, construct the test
zipline, and (when `simulateFlag`) run the blocking simulation.  On a
missing `sid` the `KeyError` surfaces before any of them. -/
def create_predictable_zipline (h0 : Heap) (callerAddr : Nat)
    (offset : Int) (simulateFlag : Bool) (env0 : TradingEnvironment) :
    ComposeOut :=
  let callerDict := h0.read callerAddr
  let h1 := h0 ++ [callerDict]
  let copyAddr := h0.length
  match composeConfig callerDict offset env0 with
  | .error e => ⟨h1, [], .error e⟩
  | .ok c9 =>
    ⟨h1.set copyAddr c9,
     [.createEnv, .buildSource, .createZipline] ++
       (if simulateFlag then [.runSimulation] else []),
     .ok c9⟩

/-- The caller-supplied `trade_count` of a configuration, or its default
3 (used to state properties of the composed result). -/
def callerTradeCount (d : Dict) : Int :=
  match d.lookup "trade_count" with
  | some (.int n) => n
  | _ => 3

namespace Dict

@[simp] theorem lookup_insert_self (d : Dict) (k : String) (v : Val) :
    (d.insert k v).lookup k = some v := by
  induction d with
  | nil => simp [insert, lookup]
  | cons p rest ih =>
    by_cases h : p.1 = k
    · simp [insert, lookup, h]
    · simp [insert, lookup, h, ih]

theorem lookup_insert_ne (d : Dict) (k k' : String) (v : Val)
    (h : k' ≠ k) : (d.insert k v).lookup k' = d.lookup k' := by
  induction d with
  | nil => simp [insert, lookup, Ne.symm h]
  | cons p rest ih =>
    by_cases h1 : p.1 = k
    · subst h1
      simp [insert, lookup, Ne.symm h]
    · by_cases h2 : p.1 = k'
      · simp [insert, lookup, h1, h2, h]
      · simp [insert, lookup, h1, h2, ih]

@[simp] theorem lookup_erase_self (d : Dict) (k : String) :
    (d.erase k).lookup k = none := by
  induction d with
  | nil => simp [erase, lookup]
  | cons p rest ih =>
    by_cases h : p.1 = k
    · simp [erase, lookup, h, ih]
    · simp [erase, lookup, h, ih]

theorem lookup_erase_ne (d : Dict) (k k' : String) (h : k' ≠ k) :
    (d.erase k).lookup k' = d.lookup k' := by
  induction d with
  | nil => simp [erase, lookup]
  | cons p rest ih =>
    by_cases h1 : p.1 = k
    · subst h1
      simp [erase, lookup, Ne.symm h, ih]
    · by_cases h2 : p.1 = k'
      · simp [erase, lookup, h1, h2, h]
      · simp [erase, lookup, h1, h2, ih]

/-- After a successful integer pop the key is gone from the result. -/
theorem popInt_lookup_self {d : Dict} {k : String} {dflt n : Int}
    {d' : Dict} (h : d.popInt k dflt = some (n, d')) :
    d'.lookup k = none := by
  unfold popInt at h
  cases hl : d.lookup k with
  | none => rw [hl] at h; cases h; exact hl
  | some v =>
    rw [hl] at h
    cases v with
    | int m => cases h; exact lookup_erase_self d k
    | strategy a b c => cases h
    | source s => cases h
    | env e => cases h
    | style s => cases h

/-- A successful pop leaves every other key untouched. -/
theorem popInt_lookup_ne {d : Dict} {k : String} {dflt n : Int}
    {d' : Dict} (h : d.popInt k dflt = some (n, d')) (k' : String)
    (hk : k' ≠ k) : d'.lookup k' = d.lookup k' := by
  unfold popInt at h
  cases hl : d.lookup k with
  | none => rw [hl] at h; cases h; rfl
  | some v =>
    rw [hl] at h
    cases v with
    | int m => cases h; exact lookup_erase_ne d k k' hk
    | strategy a b c => cases h
    | source s => cases h
    | env e => cases h
    | style s => cases h

/-- The popped value is the stored integer, or the default when the key
is absent. -/
theorem popInt_value {d : Dict} {k : String} {dflt n : Int} {d' : Dict}
    (h : d.popInt k dflt = some (n, d')) :
    d.lookup k = some (.int n) ∨ (d.lookup k = none ∧ n = dflt) := by
  unfold popInt at h
  cases hl : d.lookup k with
  | none => rw [hl] at h; cases h; exact Or.inr ⟨rfl, rfl⟩
  | some v =>
    rw [hl] at h
    cases v with
    | int m => cases h; exact Or.inl rfl
    | strategy a b c => cases h
    | source s => cases h
    | env e => cases h
    | style s => cases h

end Dict

theorem Heap.read_append_lt (h : Heap) (d : Dict) (a : Nat)
    (ha : a < h.length) : Heap.read (h ++ [d]) a = Heap.read h a := by
  unfold Heap.read
  induction h generalizing a with
  | nil => exact absurd ha (by simp)
  | cons x rest ih =>
    cases a with
    | zero => rfl
    | succ a =>
      simp only [List.cons_append, List.getD_cons_succ]
      exact ih a (by simpa using ha)

theorem Heap.set_append_length (h : Heap) (d c : Dict) :
    (h ++ [d]).set h.length c = h ++ [c] := by
  induction h with
  | nil => rfl
  | cons x rest ih => simp [List.set, ih]

theorem compose_ret_eq (h0 : Heap) (a : Nat) (off : Int) (sf : Bool)
    (e0 : TradingEnvironment) :
    (create_predictable_zipline h0 a off sf e0).ret =
      composeConfig (h0.read a) off e0 := by
  unfold create_predictable_zipline
  cases hc : composeConfig (h0.read a) off e0 <;> simp [hc]

/-- The event list of the generated source, as a named abbreviation for
statements. -/
def updownEvents (sid trade_count : Int) (env : TradingEnvironment)
    (base_price amplitude : ℚ) : List TradeEvent :=
  (create_updown_trade_source sid trade_count env base_price amplitude).1.events

theorem updownEvents_eq (sid trade_count : Int) (env : TradingEnvironment)
    (base_price amplitude : ℚ) :
    updownEvents sid trade_count env base_price amplitude =
      (updownLoop sid env.advance amplitude (trade_count + 2).toNat 0
        env.first_open (base_price - amplitude / 2)).1 := rfl

@[simp] theorem updownEvents_length (sid trade_count : Int)
    (env : TradingEnvironment) (base_price amplitude : ℚ) :
    (updownEvents sid trade_count env base_price amplitude).length =
      (trade_count + 2).toNat := by
  rw [updownEvents_eq, updownLoop_length]

/-- An advancement rule that always moves strictly forward stays strictly
ahead of its start after any positive number of iterations. -/
theorem iterate_lt_of_lt (f : Int → Int) (hf : ∀ t, t < f t) :
    ∀ (n : Nat) (t : Int), t < f^[n + 1] t := by
  intro n
  induction n with
  | zero => intro t; simpa using hf t
  | succ m ih =>
    intro t
    rw [Function.iterate_succ_apply]
    exact lt_trans (hf t) (ih (f t))

/-- Concrete fixture: an environment whose first open is 0 and whose
trading-day advancement adds one. -/
def env0 : TradingEnvironment := ⟨0, fun t => t + 1, none⟩

/-- Concrete fixture: a caller heap holding the single configuration
`{sid: 1}` at address 0. -/
def scenarioHeap : Heap := [[("sid", Val.int 1)]]

/-- Concrete fixture: the composer run on `{sid: 1}` with `offset = 0`
(no simulation). -/
def scenarioOut : ComposeOut :=
  create_predictable_zipline scenarioHeap 0 0 false env0

/-- The final configuration of the concrete composer run. -/
def scenarioConfig : Dict :=
  match scenarioOut.ret with
  | .ok d => d
  | .error _ => []

theorem create_updown_period_end_eq (sid trade_count : Int)
    (env : TradingEnvironment) (base_price amplitude : ℚ) :
    (create_updown_trade_source sid trade_count env base_price
        amplitude).2.period_end =
      some ((updownLoop sid env.advance amplitude (trade_count + 2).toNat 0
        env.first_open (base_price - amplitude / 2)).2) := rfl

/-- C1: the emitted prices start at `base_price - amplitude/2` and then
alternate by `+amplitude` (even step index) and `-amplitude` (odd step
index), the alternation never resetting; in particular
`generate(sid=1, trade_count=3, base_price=50, amplitude=10)` yields the
five prices `[45, 55, 45, 55, 45]`. -/
theorem updown_price_pattern (sid trade_count : Int)
    (env : TradingEnvironment) (base_price amplitude : ℚ) (j : Nat)
    (hj : j + 1 <
      (updownEvents sid trade_count env base_price amplitude).length) :
    ((updownEvents sid trade_count env base_price amplitude).getD 0
        defaultEvent).price = base_price - amplitude / 2 ∧
    ((updownEvents sid trade_count env base_price amplitude).getD (j + 1)
        defaultEvent).price =
      ((updownEvents sid trade_count env base_price amplitude).getD j
        defaultEvent).price +
        (if j % 2 = 0 then amplitude else -amplitude) ∧
    (updownEvents 1 3 env 50 10).map (fun e => e.price) =
      [45, 55, 45, 55, 45] := by
  rw [updownEvents_length] at hj
  refine ⟨?_, ?_, ?_⟩
  · rw [updownEvents_eq, updownLoop_getD sid env.advance amplitude 0
      (trade_count + 2).toNat 0 env.first_open
      (base_price - amplitude / 2) (by omega)]
    simp [priceAt]
  · rw [updownEvents_eq,
      updownLoop_getD sid env.advance amplitude (j + 1)
        (trade_count + 2).toNat 0 env.first_open
        (base_price - amplitude / 2) hj,
      updownLoop_getD sid env.advance amplitude j
        (trade_count + 2).toNat 0 env.first_open
        (base_price - amplitude / 2) (by omega)]
    simp only
    rw [priceAt_succ_right]
    rcases Nat.even_or_odd j with hpar | hpar
    · have h2 : j % 2 = 0 := Nat.even_iff.mp hpar
      simp [sign, h2]
    · have h2 : j % 2 = 1 := Nat.odd_iff.mp hpar
      simp [sign, h2]
  · rw [updownEvents_eq]
    have h5 : ((3 : Int) + 2).toNat = 5 := rfl
    rw [h5]
    simp only [updownLoop_succ, updownLoop_zero, List.map_cons,
      List.map_nil, sign]
    norm_num

/-- C1 witness: instance of the price pattern at
`sid = 1, trade_count = 3, base_price = 50, amplitude = 10, j = 0` on a
concrete environment. -/
theorem updown_price_pattern_witness :
    0 + 1 < (updownEvents 1 3 env0 50 10).length ∧
    (((updownEvents 1 3 env0 50 10).getD 0 defaultEvent).price
        = 50 - 10 / 2 ∧
      ((updownEvents 1 3 env0 50 10).getD (0 + 1) defaultEvent).price =
        ((updownEvents 1 3 env0 50 10).getD 0 defaultEvent).price +
          (if 0 % 2 = 0 then (10 : ℚ) else -10) ∧
      (updownEvents 1 3 env0 50 10).map (fun e => e.price) =
        [45, 55, 45, 55, 45]) :=
  ⟨by decide, updown_price_pattern 1 3 env0 50 10 0 (by decide)⟩

/-- C3: for non-negative `trade_count = N` the generator emits exactly
`N + 2` events, every one a `"trade"` event for the given sid with the
constant volume 1000. -/
theorem updown_event_count_and_fields (sid trade_count : Int)
    (env : TradingEnvironment) (base_price amplitude : ℚ)
    (h : 0 ≤ trade_count) :
    ((updownEvents sid trade_count env base_price amplitude).length : Int)
      = trade_count + 2 ∧
    ∀ e ∈ updownEvents sid trade_count env base_price amplitude,
      e.type = "trade" ∧ e.sid = sid ∧ e.volume = 1000 := by
  constructor
  · rw [updownEvents_length]
    omega
  · intro e he
    rw [updownEvents_eq] at he
    exact updownLoop_mem sid env.advance amplitude _ 0 env.first_open _ e he

/-- C3 witness: instance at `trade_count = 3` on a concrete
environment. -/
theorem updown_event_count_and_fields_witness :
    (0 : Int) ≤ 3 ∧
    (((updownEvents 1 3 env0 50 10).length : Int) = 3 + 2 ∧
      ∀ e ∈ updownEvents 1 3 env0 50 10,
        e.type = "trade" ∧ e.sid = 1 ∧ e.volume = 1000) :=
  ⟨by decide, updown_event_count_and_fields 1 3 env0 50 10 (by decide)⟩

/-- C4: when the external advancement rule always returns a strictly
later instant, the emitted timestamps are strictly increasing, the first
timestamp is the advancement of the environment's `first_open`, and each
later timestamp is the advancement of its predecessor. -/
theorem updown_timestamps (sid trade_count : Int)
    (env : TradingEnvironment) (base_price amplitude : ℚ)
    (hadv : ∀ t, t < env.advance t) (j k : Nat) (hjk : j < k)
    (hk : k <
      (updownEvents sid trade_count env base_price amplitude).length) :
    ((updownEvents sid trade_count env base_price amplitude).getD j
        defaultEvent).dt <
      ((updownEvents sid trade_count env base_price amplitude).getD k
        defaultEvent).dt ∧
    ((updownEvents sid trade_count env base_price amplitude).getD 0
        defaultEvent).dt = env.advance env.first_open ∧
    ((updownEvents sid trade_count env base_price amplitude).getD k
        defaultEvent).dt =
      env.advance
        (((updownEvents sid trade_count env base_price amplitude).getD
          (k - 1) defaultEvent).dt) := by
  rw [updownEvents_length] at hk
  have hdt : ∀ (m : Nat), m < (trade_count + 2).toNat →
      ((updownEvents sid trade_count env base_price amplitude).getD m
        defaultEvent).dt = env.advance^[m + 1] env.first_open := by
    intro m hm
    rw [updownEvents_eq,
      updownLoop_getD sid env.advance amplitude m (trade_count + 2).toNat
        0 env.first_open (base_price - amplitude / 2) hm]
  refine ⟨?_, ?_, ?_⟩
  · rw [hdt j (by omega), hdt k hk]
    obtain ⟨m, rfl⟩ : ∃ m, k = j + 1 + m := ⟨k - j - 1, by omega⟩
    have hsplit : j + 1 + m + 1 = (m + 1) + (j + 1) := by omega
    rw [hsplit]
    conv_rhs => rw [Function.iterate_add_apply]
    exact iterate_lt_of_lt env.advance hadv m _
  · rw [hdt 0 (by omega)]
    simp
  · rw [hdt k hk, hdt (k - 1) (by omega)]
    have hks : k - 1 + 1 = k := by omega
    rw [hks, ← Function.iterate_succ_apply' env.advance k]

/-- C4 witness: instance on a concrete environment advancing by one day,
with `j = 0, k = 1`. -/
theorem updown_timestamps_witness :
    (∀ t : Int, t < env0.advance t) ∧ 0 < 1 ∧
    1 < (updownEvents 1 3 env0 50 10).length ∧
    (((updownEvents 1 3 env0 50 10).getD 0 defaultEvent).dt <
        ((updownEvents 1 3 env0 50 10).getD 1 defaultEvent).dt ∧
      ((updownEvents 1 3 env0 50 10).getD 0 defaultEvent).dt =
        env0.advance env0.first_open ∧
      ((updownEvents 1 3 env0 50 10).getD 1 defaultEvent).dt =
        env0.advance
          (((updownEvents 1 3 env0 50 10).getD (1 - 1) defaultEvent).dt)) :=
  ⟨fun t => by exact lt_add_one t, by decide, by decide,
    updown_timestamps 1 3 env0 50 10 (fun t => by exact lt_add_one t) 0 1
      (by decide) (by decide)⟩

/-- C5: when at least one event is generated, the environment's recorded
`period_end` equals the timestamp of the last emitted event. -/
theorem updown_period_end (sid trade_count : Int)
    (env : TradingEnvironment) (base_price amplitude : ℚ)
    (h : 0 < (updownEvents sid trade_count env base_price amplitude).length) :
    (create_updown_trade_source sid trade_count env base_price
        amplitude).2.period_end =
      some (((updownEvents sid trade_count env base_price amplitude).getD
        ((updownEvents sid trade_count env base_price amplitude).length - 1)
        defaultEvent).dt) := by
  rw [updownEvents_length] at h
  rw [create_updown_period_end_eq, updownEvents_length,
    updownLoop_snd sid env.advance amplitude (trade_count + 2).toNat 0
      env.first_open (base_price - amplitude / 2),
    updownEvents_eq,
    updownLoop_getD sid env.advance amplitude ((trade_count + 2).toNat - 1)
      (trade_count + 2).toNat 0 env.first_open
      (base_price - amplitude / 2) (by omega)]
  have hn : (trade_count + 2).toNat - 1 + 1 = (trade_count + 2).toNat := by
    omega
  rw [hn]

/-- C5 witness: instance at `trade_count = 3` on a concrete
environment. -/
theorem updown_period_end_witness :
    0 < (updownEvents 1 3 env0 50 10).length ∧
    (create_updown_trade_source 1 3 env0 50 10).2.period_end =
      some (((updownEvents 1 3 env0 50 10).getD
        ((updownEvents 1 3 env0 50 10).length - 1) defaultEvent).dt) :=
  ⟨by decide, updown_period_end 1 3 env0 50 10 (by decide)⟩

/-- C10: for `trade_count ≤ -2` the loop body never runs: the source's
event list is empty and `period_end` is set to the environment's
`first_open`. -/
theorem updown_negative_trade_count (sid trade_count : Int)
    (env : TradingEnvironment) (base_price amplitude : ℚ)
    (h : trade_count ≤ -2) :
    updownEvents sid trade_count env base_price amplitude = [] ∧
    (create_updown_trade_source sid trade_count env base_price
        amplitude).2.period_end = some env.first_open := by
  have hn : (trade_count + 2).toNat = 0 := by omega
  constructor
  · rw [updownEvents_eq, hn]
    rfl
  · rw [create_updown_period_end_eq, hn]
    rfl

/-- C10 witness: instance at `trade_count = -2` on a concrete
environment. -/
theorem updown_negative_trade_count_witness :
    (-2 : Int) ≤ -2 ∧
    (updownEvents 1 (-2) env0 50 10 = [] ∧
      (create_updown_trade_source 1 (-2) env0 50 10).2.period_end =
        some env0.first_open) :=
  ⟨by decide, updown_negative_trade_count 1 (-2) env0 50 10 (by decide)⟩

/-- Inversion principle for a successful composition: the four extraction
steps succeeded and the final dictionary is the copy after the pops and
the five (or six) insertions. -/
theorem composeConfig_ok {config0 : Dict} {offset : Int}
    {e0 : TradingEnvironment} {final : Dict}
    (h : composeConfig config0 offset e0 = .ok final) :
    ∃ sid amplitude c1 base_price c2 trade_count c3,
      config0.lookup "sid" = some (.int sid) ∧
      config0.popInt "amplitude" 10 = some (amplitude, c1) ∧
      c1.popInt "base_price" 50 = some (base_price, c2) ∧
      c2.popInt "trade_count" 3 = some (trade_count, c3) ∧
      final =
        (((((if (c3.lookup "algorithm").isSome then c3
              else c3.insert "algorithm"
                (.strategy sid 100 offset)).insert
            "order_count" (.int (trade_count - 1))).insert
          "trade_count" (.int trade_count)).insert
          "trade_source" (.source (create_updown_trade_source sid
            trade_count e0 (base_price : ℚ) (amplitude : ℚ)).1)).insert
          "environment" (.env (create_updown_trade_source sid trade_count
            e0 (base_price : ℚ) (amplitude : ℚ)).2)).insert
          "simulation_style" (.style "FIXED_SLIPPAGE") := by
  unfold composeConfig at h
  split at h
  any_goals exact Except.noConfusion h
  rename_i sid heqsid
  split at h
  any_goals exact Except.noConfusion h
  rename_i amplitude c1 heqamp
  split at h
  any_goals exact Except.noConfusion h
  rename_i base_price c2 heqbp
  split at h
  any_goals exact Except.noConfusion h
  rename_i trade_count c3 heqtc
  injection h with h
  exact ⟨sid, amplitude, c1, base_price, c2, trade_count, c3, heqsid,
    heqamp, heqbp, heqtc, h.symm⟩

/-- C6: the run composer never changes the caller's configuration object:
the dictionary at the caller's address is unchanged after the call, on
every path. -/
theorem compose_preserves_caller_config (h0 : Heap) (callerAddr : Nat)
    (offset : Int) (simulateFlag : Bool) (e0 : TradingEnvironment)
    (ha : callerAddr < h0.length) :
    (create_predictable_zipline h0 callerAddr offset simulateFlag
        e0).heap.read callerAddr = h0.read callerAddr := by
  unfold create_predictable_zipline
  cases hc : composeConfig (h0.read callerAddr) offset e0 with
  | error e =>
    simp only [hc]
    exact Heap.read_append_lt h0 _ callerAddr ha
  | ok c9 =>
    simp only [hc]
    rw [Heap.set_append_length]
    exact Heap.read_append_lt h0 _ callerAddr ha

/-- C6 witness: concrete run on the heap holding `{sid: 1}` at
address 0. -/
theorem compose_preserves_caller_config_witness :
    0 < scenarioHeap.length ∧
    (create_predictable_zipline scenarioHeap 0 0 false env0).heap.read 0 =
      scenarioHeap.read 0 :=
  ⟨by decide, compose_preserves_caller_config scenarioHeap 0 0 false env0
    (by decide)⟩

/-- C7: every successfully composed final configuration stores
`trade_count` equal to the caller-supplied value (default 3) and
`order_count` equal to that value minus one. -/
theorem compose_order_count (h0 : Heap) (callerAddr : Nat) (offset : Int)
    (simulateFlag : Bool) (e0 : TradingEnvironment) (final : Dict)
    (hok : (create_predictable_zipline h0 callerAddr offset simulateFlag
      e0).ret = .ok final) :
    final.lookup "trade_count" =
      some (.int (callerTradeCount (h0.read callerAddr))) ∧
    final.lookup "order_count" =
      some (.int (callerTradeCount (h0.read callerAddr) - 1)) := by
  rw [compose_ret_eq] at hok
  obtain ⟨sid, amplitude, c1, base_price, c2, trade_count, c3, heqsid,
    heqamp, heqbp, heqtc, rfl⟩ := composeConfig_ok hok
  have h1 : c2.lookup "trade_count" =
      (h0.read callerAddr).lookup "trade_count" := by
    rw [Dict.popInt_lookup_ne heqbp "trade_count" (by decide),
      Dict.popInt_lookup_ne heqamp "trade_count" (by decide)]
  have htcv : callerTradeCount (h0.read callerAddr) = trade_count := by
    rcases Dict.popInt_value heqtc with h2 | ⟨h2, rfl⟩
    · unfold callerTradeCount
      rw [← h1, h2]
    · unfold callerTradeCount
      rw [← h1, h2]
  rw [htcv]
  constructor
  · rw [Dict.lookup_insert_ne _ "simulation_style" "trade_count" _
        (by decide),
      Dict.lookup_insert_ne _ "environment" "trade_count" _ (by decide),
      Dict.lookup_insert_ne _ "trade_source" "trade_count" _ (by decide),
      Dict.lookup_insert_self]
  · rw [Dict.lookup_insert_ne _ "simulation_style" "order_count" _
        (by decide),
      Dict.lookup_insert_ne _ "environment" "order_count" _ (by decide),
      Dict.lookup_insert_ne _ "trade_source" "order_count" _ (by decide),
      Dict.lookup_insert_ne _ "trade_count" "order_count" _ (by decide),
      Dict.lookup_insert_self]

/-- C7 witness: the concrete `{sid: 1}` run, whose caller trade count
defaults to 3. -/
theorem compose_order_count_witness :
    (create_predictable_zipline scenarioHeap 0 0 false env0).ret =
      .ok scenarioConfig ∧
    (scenarioConfig.lookup "trade_count" =
        some (.int (callerTradeCount (scenarioHeap.read 0))) ∧
      scenarioConfig.lookup "order_count" =
        some (.int (callerTradeCount (scenarioHeap.read 0) - 1))) :=
  ⟨rfl, compose_order_count scenarioHeap 0 0 false env0 scenarioConfig rfl⟩

/-- C8: a configuration without the `sid` key makes the composer fail
with the `KeyError` from the mapping access, before any environment
creation, source construction, or simulation. -/
theorem compose_missing_sid (h0 : Heap) (callerAddr : Nat) (offset : Int)
    (simulateFlag : Bool) (e0 : TradingEnvironment)
    (h : (h0.read callerAddr).lookup "sid" = none) :
    (create_predictable_zipline h0 callerAddr offset simulateFlag
        e0).ret = .error (.keyError "sid") ∧
    (create_predictable_zipline h0 callerAddr offset simulateFlag
        e0).effects = [] := by
  have hc : composeConfig (h0.read callerAddr) offset e0 =
      .error (.keyError "sid") := by
    unfold composeConfig
    rw [h]
  constructor
  · rw [compose_ret_eq, hc]
  · unfold create_predictable_zipline
    simp [hc]

/-- C8 witness: the empty configuration at address 0, with the simulate
flag set. -/
theorem compose_missing_sid_witness :
    (Heap.read [[]] 0).lookup "sid" = none ∧
    ((create_predictable_zipline [[]] 0 0 true env0).ret =
        .error (.keyError "sid") ∧
      (create_predictable_zipline [[]] 0 0 true env0).effects = []) :=
  ⟨rfl, compose_missing_sid [[]] 0 0 true env0 rfl⟩

/-- C9: a successfully composed final configuration never contains the
keys `amplitude` or `base_price`: the pops remove them from the copy and
nothing re-inserts them. -/
theorem compose_drops_amplitude_base_price (h0 : Heap) (callerAddr : Nat)
    (offset : Int) (simulateFlag : Bool) (e0 : TradingEnvironment)
    (final : Dict)
    (hok : (create_predictable_zipline h0 callerAddr offset simulateFlag
      e0).ret = .ok final) :
    final.lookup "amplitude" = none ∧
    final.lookup "base_price" = none := by
  rw [compose_ret_eq] at hok
  obtain ⟨sid, amplitude, c1, base_price, c2, trade_count, c3, heqsid,
    heqamp, heqbp, heqtc, rfl⟩ := composeConfig_ok hok
  have hc4 : ∀ k, k ≠ "algorithm" →
      ((if (c3.lookup "algorithm").isSome then c3
        else c3.insert "algorithm"
          (.strategy sid 100 offset)).lookup k) = c3.lookup k := by
    intro k hk
    by_cases hcase : (c3.lookup "algorithm").isSome
    · rw [if_pos hcase]
    · rw [if_neg hcase, Dict.lookup_insert_ne _ _ _ _ hk]
  constructor
  · rw [Dict.lookup_insert_ne _ "simulation_style" "amplitude" _
        (by decide),
      Dict.lookup_insert_ne _ "environment" "amplitude" _ (by decide),
      Dict.lookup_insert_ne _ "trade_source" "amplitude" _ (by decide),
      Dict.lookup_insert_ne _ "trade_count" "amplitude" _ (by decide),
      Dict.lookup_insert_ne _ "order_count" "amplitude" _ (by decide),
      hc4 "amplitude" (by decide),
      Dict.popInt_lookup_ne heqtc "amplitude" (by decide),
      Dict.popInt_lookup_ne heqbp "amplitude" (by decide),
      Dict.popInt_lookup_self heqamp]
  · rw [Dict.lookup_insert_ne _ "simulation_style" "base_price" _
        (by decide),
      Dict.lookup_insert_ne _ "environment" "base_price" _ (by decide),
      Dict.lookup_insert_ne _ "trade_source" "base_price" _ (by decide),
      Dict.lookup_insert_ne _ "trade_count" "base_price" _ (by decide),
      Dict.lookup_insert_ne _ "order_count" "base_price" _ (by decide),
      hc4 "base_price" (by decide),
      Dict.popInt_lookup_ne heqtc "base_price" (by decide),
      Dict.popInt_lookup_self heqbp]

/-- C9 witness: the concrete `{sid: 1}` run. -/
theorem compose_drops_amplitude_base_price_witness :
    (create_predictable_zipline scenarioHeap 0 0 false env0).ret =
      .ok scenarioConfig ∧
    (scenarioConfig.lookup "amplitude" = none ∧
      scenarioConfig.lookup "base_price" = none) :=
  ⟨rfl, compose_drops_amplitude_base_price scenarioHeap 0 0 false env0
    scenarioConfig rfl⟩

/-- C2 counterexample: composing `{sid: 1}` with `offset = 0` succeeds,
but the final configuration does not contain the key `amplitude` (nor
`base_price`), contradicting the claim that it contains
`amplitude = 10` and `base_price = 50`. -/
theorem compose_scenario_counterexample :
    scenarioOut.ret = .ok scenarioConfig ∧
    scenarioConfig.lookup "amplitude" = none ∧
    scenarioConfig.lookup "base_price" = none :=
  ⟨rfl, rfl, rfl⟩

/-- C2 (amended): composing `{sid: 1}` with `offset = 0` yields a final
configuration with `trade_count = 3`, `order_count = 2` and an
auto-constructed default strategy `BuySellAlgorithm(1, 100, 0)`; the
defaults `amplitude = 10` and `base_price = 50` are passed to the event
generator (visible in the stored trade source and environment) but the
two keys themselves are removed from the final configuration. -/
theorem compose_scenario_amended :
    scenarioOut.ret = .ok scenarioConfig ∧
    scenarioConfig.lookup "trade_count" = some (.int 3) ∧
    scenarioConfig.lookup "order_count" = some (.int 2) ∧
    scenarioConfig.lookup "algorithm" = some (.strategy 1 100 0) ∧
    scenarioConfig.lookup "trade_source" =
      some (.source (create_updown_trade_source 1 3 env0 50 10).1) ∧
    scenarioConfig.lookup "simulation_style" =
      some (.style "FIXED_SLIPPAGE") ∧
    scenarioConfig.lookup "amplitude" = none ∧
    scenarioConfig.lookup "base_price" = none :=
  ⟨rfl, rfl, rfl, rfl, rfl, rfl, rfl, rfl⟩

end Zipline
